/-
Verification of the seedrecover command-line pipeline (seedrecover/main.py).

The development shallowly embeds the control flow of maindotpy:
  * the configuration helpers get_length and get_missing_positions
    (Python ints become Int, len results become Nat, exit(1) becomes
    Except.error 1);
  * the argparse namespace produced by parse_args, with dynamic
    attribute lookup, to capture the args.key access in main;
  * the candidate-processing loop of main as a fold over the list of
    enumerated seed phrases, with counters, the deduplication set, the
    oracle circuit breaker and an event trace recording every static
    membership check, oracle query, failure report and printed line.

The enumerator (order.iterate), the derivation (keyderiv, which raises
ChecksumError on a bad checksum) and the oracle transport (bfstakecheck,
which raises InactiveError on failure) are modules of the repository that
are not part of the verified sources; the loop is therefore parameterised
by the phrase list, by a derivation function returning Option (none for
ChecksumError) and by an oracle reply function, so every theorem below
holds for all possible behaviours of those modules.
-/
import Mathlib

namespace Seedrecover

/-! ## Configuration helpers (maindotpy lines 60-88) -/

/-- The phrase length main works with: the explicit command-line value
when one is given and nonzero (Python `if not length` treats both None
and 0 as unset), otherwise the known word count rounded up to the next
multiple of 3 (lines 62-67). -/
def effective_length (length? : Option Int) (known : Nat) : Int :=
  if length? = none ∨ length? = some 0 then
    if (known : Int) % 3 = 0 then (known : Int)
    else (known : Int) + (3 - (known : Int) % 3)
  else length?.getD 0

/-- get_length (lines 60-75): resolve the phrase length, exiting with
code 1 when it is not a multiple of 3 or smaller than the number of
known words. -/
def get_length (length? : Option Int) (known : Nat) : Except Nat Int :=
  let length := effective_length length? known
  if length % 3 ≠ 0 then Except.error 1
  else if (known : Int) > length then Except.error 1
  else Except.ok length

/-- Python `list(range(length))` over an int length, as a list of ints
(empty when the length is negative, as in Python). -/
def pyRange (len : Int) : List Int :=
  (List.range len.toNat).map (fun i : Nat => (i : Int))

/-- get_missing_positions (lines 78-88): shift the 1-based positions
given on the command line down by one; when none were given default to
all positions of the phrase; exit with code 1 when fewer positions than
missing words remain. -/
def get_missing_positions (given : List Int) (len : Int) (missing : Int) :
    Except Nat (List Int) :=
  let missing_positions := given.map (fun i => i - 1)
  let missing_positions :=
    if missing_positions = [] then pyRange len
    else missing_positions
  if (missing_positions.length : Int) < missing then Except.error 1
  else Except.ok missing_positions

/-- The configuration phase of main (lines 96-98): get_length followed by
get_missing_positions with `missing := length - known`.  Enumeration and
derivation only happen in main after this phase returns without exiting,
so an `Except.error` here models termination before any enumeration. -/
def main_config (length? : Option Int) (known : Nat) (given : List Int) :
    Except Nat (Int × List Int) :=
  match get_length length? known with
  | Except.error c => Except.error c
  | Except.ok length =>
    match get_missing_positions given length (length - (known : Int)) with
    | Except.error c => Except.error c
    | Except.ok mp => Except.ok (length, mp)

/-! ## Claims about the configuration helpers -/

/-- C5: whenever the configured phrase length (explicit, or computed from
the known words) is not a multiple of 3, main's configuration phase exits
with code 1, before any phrase enumeration begins. -/
theorem invalid_length_exits (length? : Option Int) (known : Nat)
    (given : List Int) (h : effective_length length? known % 3 ≠ 0) :
    main_config length? known given = Except.error 1 := by
  unfold main_config get_length
  simp [h]

/-- C5 witness: an explicit length of 4 is rejected with exit code 1. -/
theorem invalid_length_exits_witness :
    effective_length (some 4) 1 % 3 ≠ 0 ∧
      main_config (some 4) 1 [] = Except.error 1 :=
  ⟨by decide, invalid_length_exits (some 4) 1 [] (by decide)⟩

/-- C6: when positions for the missing words are supplied explicitly but
there are fewer of them than missing words, main's configuration phase
exits with code 1 before any derivation work is done.  (When the resolved
length already fails get_length's checks the exit code is 1 as well, so
the conclusion holds without assuming get_length succeeds.) -/
theorem too_few_missing_positions_exits (length? : Option Int) (known : Nat)
    (given : List Int) (hne : given ≠ [])
    (hlt : (given.length : Int) < effective_length length? known - (known : Int)) :
    main_config length? known given = Except.error 1 := by
  unfold main_config get_length
  by_cases h3 : effective_length length? known % 3 ≠ 0
  · simp [h3]
  · simp only [h3, if_false, ite_not]
    by_cases hk : (known : Int) > effective_length length? known
    · simp [hk]
    · simp only [hk, if_false]
      unfold get_missing_positions
      have hmap : given.map (fun i => i - 1) ≠ [] := by
        simpa using hne
      simp [hmap, hlt]

/-- C6 witness: two positions for three missing words exit with code 1. -/
theorem too_few_missing_positions_exits_witness :
    ([ (1 : Int), 2 ] ≠ ([] : List Int)) ∧
      ((([ (1 : Int), 2 ] : List Int).length : Int) <
        effective_length (some 12) 9 - (9 : Int)) ∧
      main_config (some 12) 9 [1, 2] = Except.error 1 :=
  ⟨by decide, by decide,
    too_few_missing_positions_exits (some 12) 9 [1, 2] (by decide) (by decide)⟩

/-- C7: with no explicit length, the computed length is the smallest
multiple of 3 that is at least the number of known words (divisible by 3,
at least `known`, less than `known + 3`), and get_length accepts it;
in particular two known words give length 3, one missing position. -/
theorem default_length_smallest_multiple_of_three (known : Nat) :
    3 ∣ effective_length none known ∧
      (known : Int) ≤ effective_length none known ∧
      effective_length none known < (known : Int) + 3 ∧
      get_length none known = Except.ok (effective_length none known) ∧
      effective_length none 2 = 3 := by
  have heq : effective_length none known =
      if (known : Int) % 3 = 0 then (known : Int)
      else (known : Int) + (3 - (known : Int) % 3) := by
    simp [effective_length]
  have hd : 3 ∣ effective_length none known := by rw [heq]; split <;> omega
  have hle : (known : Int) ≤ effective_length none known := by
    rw [heq]; split <;> omega
  have hlt : effective_length none known < (known : Int) + 3 := by
    rw [heq]; split <;> omega
  refine ⟨hd, hle, hlt, ?_, by decide⟩
  unfold get_length
  have hmod : effective_length none known % 3 = 0 := by omega
  simp [hmod, not_lt.mpr hle]

/-- C10: get_missing_positions shifts each explicitly given 1-based
position down by exactly 1 with no range validation (0 becomes -1 and
positions beyond the length pass through, as the concrete instance
shows), and with no explicit positions it returns all indices
0..length-1, an ascending list. -/
theorem missing_positions_one_based_shift (given : List Int)
    (len missing : Int) :
    (given ≠ [] → missing ≤ (given.length : Int) →
      get_missing_positions given len missing =
        Except.ok (given.map (fun i => i - 1))) ∧
    (missing ≤ len →
      get_missing_positions [] len missing = Except.ok (pyRange len)) ∧
    (pyRange len).Pairwise (· < ·) ∧
    get_missing_positions [0, 100] 3 1 = Except.ok [-1, 99] := by
  refine ⟨?_, ?_, ?_, by rfl⟩
  · intro hne hge
    unfold get_missing_positions
    have hmap : given.map (fun i => i - 1) ≠ [] := by simpa using hne
    simp [hmap, not_lt.mpr hge]
  · intro hge
    unfold get_missing_positions
    have hlen : (pyRange len).length = len.toNat := by
      simp [pyRange]
    have hnl : ¬ ((pyRange len).length : Int) < missing := by
      rw [hlen]; omega
    simp [hnl]
  · unfold pyRange
    rw [List.pairwise_map]
    exact (List.pairwise_lt_range _).imp (fun h => by exact_mod_cast h)

/-- C10 witness: both hypothetical branches instantiated concretely. -/
theorem missing_positions_one_based_shift_witness :
    get_missing_positions [0, 100] 5 2 = Except.ok [-1, 99] ∧
      get_missing_positions [] 5 2 = Except.ok (pyRange 5) ∧
      pyRange 5 = [0, 1, 2, 3, 4] :=
  ⟨(missing_positions_one_based_shift [0, 100] 5 2).1 (by decide) (by decide),
    (missing_positions_one_based_shift ([] : List Int) 5 2).2.1 (by decide),
    by rfl⟩

/-! ## The argparse namespace and the static-backend setup of main

parse_args (lines 22-44) registers exactly the destinations seed,
wordlist, similar, order, length, missing, address and blockfrost; an
argparse Namespace raises AttributeError for any other attribute access.
main (lines 99-101) runs `sc = None; if args.key: sc = StakeAddresses(args.address)`,
reading the attribute `key`, which parse_args never defines. -/

/-- The attributes parse_args puts on the namespace, with their argparse
defaults: seed `nargs="*"`, missing and address default `[]`, similar
default 0, order default False, the rest default None. -/
structure CliNamespace where
  seed : List String
  wordlist : Option String
  similar : Int
  order : Bool
  length : Option Int
  missing : List Int
  address : List String
  blockfrost : Option String

/-- A Python value as far as truthiness of the namespace attributes is
concerned. -/
inductive PyVal where
  | vstr (s : String)
  | vint (i : Int)
  | vbool (b : Bool)
  | vstrlist (l : List String)
  | vintlist (l : List Int)
  | vnone

/-- Dynamic attribute lookup on the parse_args namespace: exactly the
eight destinations registered in lines 25-43 are present; any other name
is an AttributeError (`none`). -/
def ns_getattr (args : CliNamespace) : String → Option PyVal
  | "seed" => some (PyVal.vstrlist args.seed)
  | "wordlist" =>
    some (match args.wordlist with
          | some s => PyVal.vstr s
          | none => PyVal.vnone)
  | "similar" => some (PyVal.vint args.similar)
  | "order" => some (PyVal.vbool args.order)
  | "length" =>
    some (match args.length with
          | some i => PyVal.vint i
          | none => PyVal.vnone)
  | "missing" => some (PyVal.vintlist args.missing)
  | "address" => some (PyVal.vstrlist args.address)
  | "blockfrost" =>
    some (match args.blockfrost with
          | some s => PyVal.vstr s
          | none => PyVal.vnone)
  | _ => none

/-- Python truthiness of a namespace attribute value. -/
def pytruthy : PyVal → Bool
  | PyVal.vstr s => s ≠ ""
  | PyVal.vint i => i ≠ 0
  | PyVal.vbool b => b
  | PyVal.vstrlist l => l ≠ []
  | PyVal.vintlist l => l ≠ []
  | PyVal.vnone => false

/-- Lines 99-101 of main: `sc = None; if args.key: sc = StakeAddresses(args.address)`.
The attribute read happens before the truthiness test, so a missing
attribute is an uncaught AttributeError (modelled as `Except.error`);
otherwise sc is the supplied address list when the attribute is truthy
and None when it is not. -/
def static_backend_setup (args : CliNamespace) :
    Except String (Option (List String)) :=
  match ns_getattr args "key" with
  | none => Except.error "AttributeError: key"
  | some v =>
    if pytruthy v then Except.ok (some args.address) else Except.ok none

/-- A command line that supplies a full valid mnemonic and a static
address list: `seedrecover ... -a stake1u8...`. -/
def c1Args : CliNamespace :=
  { seed := ["abandon", "abandon", "abandon", "abandon", "abandon", "abandon",
             "abandon", "abandon", "abandon", "abandon", "abandon", "about"],
    wordlist := none, similar := 0, order := false, length := none,
    missing := [],
    address := ["stake1u8nkm5tlqnxhstk2fxnhfq3pkpt5xzst0p34vmwtafvmvhc2vqvzp"],
    blockfrost := none }

/-- C1: the static backend is never activated.  main line 100 reads
`args.key`, an attribute parse_args never defines, so with a static
address list on the command line (c1Args) the namespace lookup fails and
main dies with an uncaught AttributeError before any candidate is
enumerated or reported — the supplied addresses are never checked and
"Searched stake address found:" can never be printed.  The intended
gate is clearly `args.address` (the option whose help text is "check for
stake addresses"). -/
theorem static_backend_never_constructed :
    static_backend_setup c1Args = Except.error "AttributeError: key" ∧
      ns_getattr c1Args "key" = none ∧ c1Args.address ≠ [] := by
  refine ⟨rfl, rfl, by decide⟩

/-! ## The candidate-processing loop of main (lines 109-147)

The loop is embedded as a fold over the list of seed phrases produced by
the enumerator.  Derivation (`seed_to_stakeaddress`, which raises
ChecksumError) is a parameter `derive : List String → Option String`
(`none` models the ChecksumError path of lines 116-119); the oracle
(`bf.check_stake_address`, which raises InactiveError) is a parameter
returning an `OracleReply`.  Every observable action of a loop body is
recorded as an event, in program order. -/

/-- Modelled from the spec: the remote oracle interface of the missing
bfstakecheck module — "query(address) -> bool, fails with a distinguished
oracle-unusable signal on any transport/auth error".  `inactive` models a
raised InactiveError carrying its message. -/
inductive OracleReply where
  | ok (active : Bool)
  | inactive (msg : String)

/-- An oracle backend: one reply per queried address. -/
def Oracle : Type := String → OracleReply

/-- Modelled from the spec: StakeAddresses.check_stake_address of the
missing stakecheck module — "Static address set: constructed from a list
of address strings; contains(address) -> bool". -/
def check_stake_address (addrs : List String) (addr : String) : Bool :=
  addrs.contains addr

/-- Observable events of one run of the loop, in program order:
a static membership check (line 129), an oracle query (line 134), the
one-off report of an oracle failure (line 138), a qualifier line
(lines 140-145) and a match line (line 147). -/
inductive Ev where
  | staticCheck (addr : String) (found : Bool)
  | oracleQuery (addr : String)
  | inactiveReported (msg : String)
  | qualifier (line : String)
  | matchLine (addr : String) (phrase : List String)

/-- The mutable state of main's loop: the oracle handle `bf` (set to
None by the circuit breaker, line 139), the deduplication set
`already_checked` (line 109), the three counters (lines 110-112) and the
trace of events so far. -/
structure LoopState where
  bf : Option Oracle
  already_checked : List String
  total : Nat
  checksum : Nat
  norepeat : Nat
  events : List Ev

/-- Lines 128-131: the static-backend check.  Returns searched, verbose
and the events emitted (`verbose` starts True at line 127 and is cleared
whenever a static backend is configured). -/
def staticPart (sc : Option (List String)) (addr : String) :
    Bool × Bool × List Ev :=
  match sc with
  | none => (false, true, [])
  | some addrs =>
    (check_stake_address addrs addr, false,
     [Ev.staticCheck addr (check_stake_address addrs addr)])

/-- Lines 132-139: the oracle check.  On a reply the candidate's activity
is recorded and verbose cleared; on InactiveError the error is printed,
bf becomes None, and — the exception having skipped line 136 — verbose
keeps the value the static part left it. -/
def oraclePart (bf : Option Oracle) (verbose : Bool) (addr : String) :
    Bool × Bool × Option Oracle × List Ev :=
  match bf with
  | none => (false, verbose, none, [])
  | some oracle =>
    match oracle addr with
    | OracleReply.ok b => (b, false, some oracle, [Ev.oracleQuery addr])
    | OracleReply.inactive msg =>
      (false, verbose, none,
       [Ev.oracleQuery addr, Ev.inactiveReported msg])

/-- Lines 140-145: the qualifier line printed before a reported match. -/
def qualifierPart (searched active : Bool) : List Ev :=
  if searched && active then
    [Ev.qualifier "Searched and active stake address found:"]
  else if searched then [Ev.qualifier "Searched stake address found:"]
  else if active then [Ev.qualifier "Active stake address found:"]
  else []

/-- Lines 146-147: the match line `address: words`, printed when a
backend confirmed the address or no backend cleared verbose. -/
def matchPart (searched active verbose : Bool) (addr : String)
    (phrase : List String) : List Ev :=
  if searched || active || verbose then [Ev.matchLine addr phrase] else []

/-- Lines 125-147: verify one fresh stake address against the configured
backends; returns the (possibly disabled) oracle handle and the emitted
events. -/
def verify (sc : Option (List String)) (bf : Option Oracle) (addr : String)
    (phrase : List String) : Option Oracle × List Ev :=
  let s := staticPart sc addr
  let o := oraclePart bf s.2.1 addr
  (o.2.2.1,
   s.2.2 ++ o.2.2.2 ++ qualifierPart s.1 o.1 ++
     matchPart s.1 o.1 o.2.1 addr phrase)

/-- One iteration of the loop (lines 113-147): count the candidate;
discard it on ChecksumError; count the checksum pass; skip it when the
address was already checked; otherwise record it, count it and verify. -/
def processPhrase (derive : List String → Option String)
    (sc : Option (List String)) (st : LoopState)
    (seed_phrase : List String) : LoopState :=
  let st := { st with total := st.total + 1 }
  match derive seed_phrase with
  | none => st
  | some stake_address =>
    let st := { st with checksum := st.checksum + 1 }
    if stake_address ∈ st.already_checked then st
    else
      let r := verify sc st.bf stake_address seed_phrase
      { st with
        already_checked := stake_address :: st.already_checked,
        norepeat := st.norepeat + 1,
        bf := r.1,
        events := st.events ++ r.2 }

/-- The state before the loop (lines 99-112). -/
def initState (bf : Option Oracle) : LoopState :=
  { bf := bf, already_checked := [], total := 0, checksum := 0,
    norepeat := 0, events := [] }

/-- The whole loop: fold over the enumerated seed phrases. -/
def runLoop (derive : List String → Option String)
    (sc : Option (List String)) (bf : Option Oracle)
    (phrases : List (List String)) : LoopState :=
  phrases.foldl (processPhrase derive sc) (initState bf)

/-! ## Event observations -/

/-- The event is an oracle query. -/
def isQuery : Ev → Bool
  | Ev.oracleQuery _ => true
  | _ => false

/-- The event is the report of an oracle failure. -/
def isFail : Ev → Bool
  | Ev.inactiveReported _ => true
  | _ => false

/-- The event is a static membership check. -/
def isStatic : Ev → Bool
  | Ev.staticCheck _ _ => true
  | _ => false

/-- The event is a qualifier line. -/
def isQualifier : Ev → Bool
  | Ev.qualifier _ => true
  | _ => false

/-- The event is a match line. -/
def isMatch : Ev → Bool
  | Ev.matchLine _ _ => true
  | _ => false

/-- Number of oracle-failure reports in a trace. -/
def countFail (l : List Ev) : Nat := (l.filter isFail).length

/-- Number of oracle queries in a trace. -/
def countQuery (l : List Ev) : Nat := (l.filter isQuery).length

/-- Number of static checks in a trace. -/
def countStatic (l : List Ev) : Nat := (l.filter isStatic).length

/-- Number of qualifier lines in a trace. -/
def countQualifier (l : List Ev) : Nat := (l.filter isQualifier).length

/-- Number of match lines in a trace. -/
def countMatch (l : List Ev) : Nat := (l.filter isMatch).length

/-- The circuit breaker held: no oracle query occurs anywhere after the
first oracle-failure report. -/
def cbOK : List Ev → Bool
  | [] => true
  | e :: rest =>
    if isFail e then rest.all (fun x => ! isQuery x) else cbOK rest

/-- The addresses of the reported match lines, in order. -/
def matchAddrs (l : List Ev) : List String :=
  l.filterMap (fun e =>
    match e with
    | Ev.matchLine a _ => some a
    | _ => none)

/-- The stdout lines of a trace: qualifier lines as printed by
lines 141-145 and match lines in the `address: words` format of
line 147. -/
def stdoutLines : List Ev → List String
  | [] => []
  | Ev.qualifier l :: rest => l :: stdoutLines rest
  | Ev.matchLine a p :: rest =>
    (a ++ ": " ++ String.intercalate " " p) :: stdoutLines rest
  | _ :: rest => stdoutLines rest

/-- The match lines of a trace rendered as printed by line 147. -/
def renderMatches (l : List Ev) : List String :=
  l.filterMap (fun e =>
    match e with
    | Ev.matchLine a p => some (a ++ ": " ++ String.intercalate " " p)
    | _ => none)

/-! ## Helper lemmas about the loop body -/

theorem processPhrase_eq (derive : List String → Option String)
    (sc : Option (List String)) (st : LoopState) (p : List String) :
    processPhrase derive sc st p =
      match derive p with
      | none => { st with total := st.total + 1 }
      | some addr =>
        if addr ∈ st.already_checked then
          { st with total := st.total + 1, checksum := st.checksum + 1 }
        else
          { st with
            total := st.total + 1
            checksum := st.checksum + 1
            already_checked := addr :: st.already_checked
            norepeat := st.norepeat + 1
            bf := (verify sc st.bf addr p).1
            events := st.events ++ (verify sc st.bf addr p).2 } := by
  unfold processPhrase
  cases derive p with
  | none => rfl
  | some addr => split <;> rfl

theorem foldl_preserves {α β : Type} (f : α → β → α) (I : α → Prop)
    (step : ∀ a b, I a → I (f a b)) :
    ∀ (l : List β) (a : α), I a → I (l.foldl f a) := by
  intro l
  induction l with
  | nil => intro a h; exact h
  | cons b t ih => intro a h; exact ih (f a b) (step a b h)

theorem countFail_append (a b : List Ev) :
    countFail (a ++ b) = countFail a + countFail b := by
  simp [countFail]

theorem countStatic_append (a b : List Ev) :
    countStatic (a ++ b) = countStatic a + countStatic b := by
  simp [countStatic]

theorem countMatch_append (a b : List Ev) :
    countMatch (a ++ b) = countMatch a + countMatch b := by
  simp [countMatch]

theorem countQualifier_append (a b : List Ev) :
    countQualifier (a ++ b) = countQualifier a + countQualifier b := by
  simp [countQualifier]

theorem matchAddrs_append (a b : List Ev) :
    matchAddrs (a ++ b) = matchAddrs a ++ matchAddrs b := by
  simp [matchAddrs]

theorem cbOK_of_countFail_zero (l : List Ev) (h : countFail l = 0) :
    cbOK l = true := by
  induction l with
  | nil => rfl
  | cons e rest ih =>
    cases hf : isFail e with
    | true =>
      exfalso
      simp [countFail, List.filter_cons, hf] at h
    | false =>
      have h0 : countFail rest = 0 := by
        simpa [countFail, List.filter_cons, hf] using h
      simpa [cbOK, hf] using ih h0

theorem cbOK_append_of_countFail_zero (a b : List Ev) (h : countFail a = 0) :
    cbOK (a ++ b) = cbOK b := by
  induction a with
  | nil => rfl
  | cons e rest ih =>
    cases hf : isFail e with
    | true =>
      exfalso
      simp [countFail, List.filter_cons, hf] at h
    | false =>
      have h0 : countFail rest = 0 := by
        simpa [countFail, List.filter_cons, hf] using h
      simpa [cbOK, hf] using ih h0

theorem all_noQuery_of_countQuery_zero (l : List Ev) (h : countQuery l = 0) :
    l.all (fun x => ! isQuery x) = true := by
  induction l with
  | nil => rfl
  | cons e rest ih =>
    cases hq : isQuery e with
    | true =>
      exfalso
      simp [countQuery, List.filter_cons, hq] at h
    | false =>
      have h0 : countQuery rest = 0 := by
        simpa [countQuery, List.filter_cons, hq] using h
      simpa [List.all_cons, hq] using ih h0

theorem cbOK_of_noQuery (l : List Ev)
    (h : l.all (fun x => ! isQuery x) = true) : cbOK l = true := by
  induction l with
  | nil => rfl
  | cons e rest ih =>
    rw [List.all_cons] at h
    obtain ⟨he, hrest⟩ := by simpa using h
    cases hf : isFail e with
    | true => simpa [cbOK, hf, List.all_eq_true] using hrest
    | false => simpa [cbOK, hf] using ih (by simpa [List.all_eq_true] using hrest)

theorem cbOK_append_noQuery (a b : List Ev) (ha : cbOK a = true)
    (hb : b.all (fun x => ! isQuery x) = true) : cbOK (a ++ b) = true := by
  induction a with
  | nil => exact cbOK_of_noQuery b hb
  | cons e rest ih =>
    cases hf : isFail e with
    | true =>
      have hrest : rest.all (fun x => ! isQuery x) = true := by
        simpa [cbOK, hf] using ha
      have : (rest ++ b).all (fun x => ! isQuery x) = true := by
        rw [List.all_append, hrest, hb]; rfl
      simpa [cbOK, hf] using this
    | false =>
      have ha0 : cbOK rest = true := by simpa [cbOK, hf] using ha
      simpa [cbOK, hf] using ih ha0

/-! ## Behaviour of verify in each backend situation -/

theorem verify_none_oracle (sc : Option (List String)) (addr : String)
    (phrase : List String) :
    (verify sc none addr phrase).1 = none ∧
      countQuery (verify sc none addr phrase).2 = 0 ∧
      countFail (verify sc none addr phrase).2 = 0 := by
  cases sc with
  | none => exact ⟨rfl, rfl, rfl⟩
  | some l =>
    cases hs : check_stake_address l addr <;>
      simp [verify, staticPart, oraclePart, qualifierPart, matchPart,
        countQuery, countFail, isQuery, isFail, hs, List.filter_cons]

theorem verify_oracle_ok (sc : Option (List String)) (o : Oracle)
    (addr : String) (phrase : List String) (b : Bool)
    (h : o addr = OracleReply.ok b) :
    (verify sc (some o) addr phrase).1 = some o ∧
      countFail (verify sc (some o) addr phrase).2 = 0 := by
  cases sc with
  | none =>
    cases b <;>
      simp [verify, staticPart, oraclePart, qualifierPart, matchPart,
        countFail, isFail, h, List.filter_cons]
  | some l =>
    cases b <;> cases hs : check_stake_address l addr <;>
      simp [verify, staticPart, oraclePart, qualifierPart, matchPart,
        countFail, isFail, h, hs, List.filter_cons]

theorem verify_oracle_inactive (sc : Option (List String)) (o : Oracle)
    (addr : String) (phrase : List String) (m : String)
    (h : o addr = OracleReply.inactive m) :
    (verify sc (some o) addr phrase).1 = none ∧
      countFail (verify sc (some o) addr phrase).2 = 1 := by
  cases sc with
  | none =>
    simp [verify, staticPart, oraclePart, qualifierPart, matchPart,
      countFail, isFail, h, List.filter_cons]
  | some l =>
    cases hs : check_stake_address l addr <;>
      simp [verify, staticPart, oraclePart, qualifierPart, matchPart,
        countFail, isFail, h, hs, List.filter_cons]

theorem verify_cbOK (sc : Option (List String)) (bf : Option Oracle)
    (addr : String) (phrase : List String) :
    cbOK (verify sc bf addr phrase).2 = true := by
  cases bf with
  | none => exact cbOK_of_countFail_zero _ (verify_none_oracle sc addr phrase).2.2
  | some o =>
    cases h : o addr with
    | ok b => exact cbOK_of_countFail_zero _ (verify_oracle_ok sc o addr phrase b h).2
    | inactive m =>
      cases sc with
      | none =>
        simp [verify, staticPart, oraclePart, qualifierPart, matchPart,
          cbOK, isFail, isQuery, h]
      | some l =>
        cases hs : check_stake_address l addr <;>
          simp [verify, staticPart, oraclePart, qualifierPart, matchPart,
            cbOK, isFail, isQuery, h, hs]

theorem verify_countStatic (l : List String) (bf : Option Oracle)
    (addr : String) (phrase : List String) :
    countStatic (verify (some l) bf addr phrase).2 = 1 := by
  cases bf with
  | none =>
    cases hs : check_stake_address l addr <;>
      simp [verify, staticPart, oraclePart, qualifierPart, matchPart,
        countStatic, isStatic, hs, List.filter_cons]
  | some o =>
    cases h : o addr with
    | ok b =>
      cases b <;> cases hs : check_stake_address l addr <;>
        simp [verify, staticPart, oraclePart, qualifierPart, matchPart,
          countStatic, isStatic, h, hs, List.filter_cons]
    | inactive m =>
      cases hs : check_stake_address l addr <;>
        simp [verify, staticPart, oraclePart, qualifierPart, matchPart,
          countStatic, isStatic, h, hs, List.filter_cons]

theorem verify_matchAddrs (sc : Option (List String)) (bf : Option Oracle)
    (addr : String) (phrase : List String) :
    matchAddrs (verify sc bf addr phrase).2 = [] ∨
      matchAddrs (verify sc bf addr phrase).2 = [addr] := by
  have core : ∀ (s : Bool × Bool × List Ev) (o : Bool × Bool × Option Oracle × List Ev),
      matchAddrs s.2.2 = [] → matchAddrs o.2.2.2 = [] →
      (matchAddrs
        (s.2.2 ++ o.2.2.2 ++ qualifierPart s.1 o.1 ++
          matchPart s.1 o.1 o.2.1 addr phrase) = [] ∨
       matchAddrs
        (s.2.2 ++ o.2.2.2 ++ qualifierPart s.1 o.1 ++
          matchPart s.1 o.1 o.2.1 addr phrase) = [addr]) := by
    intro s o hs ho
    rw [matchAddrs_append, matchAddrs_append, matchAddrs_append, hs, ho]
    cases hq : s.1 <;> cases ha : o.1 <;> cases hv : o.2.1 <;>
      simp [qualifierPart, matchPart, matchAddrs]
  have hstatic : matchAddrs (staticPart sc addr).2.2 = [] := by
    cases sc <;> simp [staticPart, matchAddrs]
  have horacle :
      matchAddrs (oraclePart bf (staticPart sc addr).2.1 addr).2.2.2 = [] := by
    cases bf with
    | none => simp [oraclePart, matchAddrs]
    | some o =>
      cases h : o addr <;> simp [oraclePart, matchAddrs, h]
  exact core (staticPart sc addr) (oraclePart bf (staticPart sc addr).2.1 addr)
    hstatic horacle

theorem verify_no_backend (addr : String) (phrase : List String) :
    verify none none addr phrase = (none, [Ev.matchLine addr phrase]) := rfl

/-! ## Loop-level invariant steps -/

theorem processPhrase_total (derive : List String → Option String)
    (sc : Option (List String)) (st : LoopState) (p : List String) :
    (processPhrase derive sc st p).total = st.total + 1 := by
  rw [processPhrase_eq]
  cases derive p with
  | none => rfl
  | some addr => dsimp only; split <;> rfl

theorem runLoop_total_aux (derive : List String → Option String)
    (sc : Option (List String)) :
    ∀ (phrases : List (List String)) (st : LoopState),
      (phrases.foldl (processPhrase derive sc) st).total =
        st.total + phrases.length := by
  intro phrases
  induction phrases with
  | nil => intro st; simp
  | cons p t ih =>
    intro st
    rw [List.foldl_cons, ih, processPhrase_total, List.length_cons]
    omega

theorem cb_step (derive : List String → Option String)
    (sc : Option (List String)) (st : LoopState) (p : List String)
    (h : cbOK st.events = true ∧ countFail st.events ≤ 1 ∧
      (∀ o, st.bf = some o → countFail st.events = 0)) :
    cbOK (processPhrase derive sc st p).events = true ∧
      countFail (processPhrase derive sc st p).events ≤ 1 ∧
      (∀ o, (processPhrase derive sc st p).bf = some o →
        countFail (processPhrase derive sc st p).events = 0) := by
  obtain ⟨h1, h2, h3⟩ := h
  rw [processPhrase_eq]
  cases hd : derive p with
  | none => exact ⟨h1, h2, h3⟩
  | some addr =>
    dsimp only
    by_cases hm : addr ∈ st.already_checked
    · rw [if_pos hm]; exact ⟨h1, h2, h3⟩
    · rw [if_neg hm]
      dsimp only
      cases hbf : st.bf with
      | none =>
        obtain ⟨hb, hq, hf⟩ := verify_none_oracle sc addr p
        refine ⟨?_, ?_, ?_⟩
        · exact cbOK_append_noQuery _ _ h1 (all_noQuery_of_countQuery_zero _ hq)
        · rw [countFail_append, hf]; omega
        · intro o ho
          rw [hb] at ho
          exact Option.noConfusion ho
      | some o0 =>
        have hf0 : countFail st.events = 0 := h3 o0 hbf
        cases hr : o0 addr with
        | ok b =>
          obtain ⟨hb, hf⟩ := verify_oracle_ok sc o0 addr p b hr
          refine ⟨?_, ?_, ?_⟩
          · rw [cbOK_append_of_countFail_zero _ _ hf0]
            exact verify_cbOK sc (some o0) addr p
          · rw [countFail_append, hf0, hf]; omega
          · intro o ho
            rw [countFail_append, hf0, hf]
        | inactive m =>
          obtain ⟨hb, hf⟩ := verify_oracle_inactive sc o0 addr p m hr
          refine ⟨?_, ?_, ?_⟩
          · rw [cbOK_append_of_countFail_zero _ _ hf0]
            exact verify_cbOK sc (some o0) addr p
          · rw [countFail_append, hf0, hf]
          · intro o ho
            rw [hb] at ho
            exact Option.noConfusion ho

theorem static_step (derive : List String → Option String) (l : List String)
    (st : LoopState) (p : List String)
    (h : countStatic st.events = st.norepeat) :
    countStatic (processPhrase derive (some l) st p).events =
      (processPhrase derive (some l) st p).norepeat := by
  rw [processPhrase_eq]
  cases hd : derive p with
  | none => exact h
  | some addr =>
    dsimp only
    by_cases hm : addr ∈ st.already_checked
    · rw [if_pos hm]; exact h
    · rw [if_neg hm]
      dsimp only
      rw [countStatic_append, h, verify_countStatic]

theorem dedup_step (derive : List String → Option String)
    (sc : Option (List String)) (st : LoopState) (p : List String)
    (h : (matchAddrs st.events).Nodup ∧
      ∀ a, a ∈ matchAddrs st.events → a ∈ st.already_checked) :
    (matchAddrs (processPhrase derive sc st p).events).Nodup ∧
      ∀ a, a ∈ matchAddrs (processPhrase derive sc st p).events →
        a ∈ (processPhrase derive sc st p).already_checked := by
  obtain ⟨h1, h2⟩ := h
  rw [processPhrase_eq]
  cases hd : derive p with
  | none => exact ⟨h1, h2⟩
  | some addr =>
    dsimp only
    by_cases hm : addr ∈ st.already_checked
    · rw [if_pos hm]; exact ⟨h1, h2⟩
    · rw [if_neg hm]
      dsimp only
      have hnotin : addr ∉ matchAddrs st.events := fun hin => hm (h2 addr hin)
      rcases verify_matchAddrs sc st.bf addr p with hv | hv
      · rw [matchAddrs_append, hv, List.append_nil]
        exact ⟨h1, fun a ha => List.mem_cons_of_mem _ (h2 a ha)⟩
      · rw [matchAddrs_append, hv]
        constructor
        · rw [List.nodup_append]
          refine ⟨h1, List.nodup_singleton addr, ?_⟩
          intro a ha hb
          rw [List.mem_singleton] at hb
          exact hnotin (hb ▸ ha)
        · intro a ha
          rcases List.mem_append.mp ha with ha | ha
          · exact List.mem_cons_of_mem _ (h2 a ha)
          · rw [List.mem_singleton] at ha
            exact ha ▸ List.mem_cons_self _ _

theorem verbose_step (derive : List String → Option String)
    (st : LoopState) (p : List String)
    (h : st.bf = none ∧ st.events.all isMatch = true ∧
      countMatch st.events = st.norepeat ∧ countQualifier st.events = 0) :
    (processPhrase derive none st p).bf = none ∧
      (processPhrase derive none st p).events.all isMatch = true ∧
      countMatch (processPhrase derive none st p).events =
        (processPhrase derive none st p).norepeat ∧
      countQualifier (processPhrase derive none st p).events = 0 := by
  obtain ⟨hbf, h1, h2, h3⟩ := h
  rw [processPhrase_eq]
  cases hd : derive p with
  | none => exact ⟨hbf, h1, h2, h3⟩
  | some addr =>
    dsimp only
    by_cases hm : addr ∈ st.already_checked
    · rw [if_pos hm]; exact ⟨hbf, h1, h2, h3⟩
    · rw [if_neg hm]
      dsimp only
      rw [hbf, verify_no_backend]
      refine ⟨rfl, ?_, ?_, ?_⟩
      · rw [List.all_append, h1]
        rfl
      · rw [countMatch_append, h2]
        rfl
      · rw [countQualifier_append, h3]
        rfl

theorem counters_step (derive : List String → Option String)
    (sc : Option (List String)) (st : LoopState) (p : List String)
    (h : st.norepeat ≤ st.checksum ∧ st.checksum ≤ st.total) :
    (processPhrase derive sc st p).norepeat ≤
        (processPhrase derive sc st p).checksum ∧
      (processPhrase derive sc st p).checksum ≤
        (processPhrase derive sc st p).total := by
  obtain ⟨h1, h2⟩ := h
  rw [processPhrase_eq]
  cases hd : derive p with
  | none => dsimp only; omega
  | some addr =>
    dsimp only
    by_cases hm : addr ∈ st.already_checked
    · rw [if_pos hm]; dsimp only; omega
    · rw [if_neg hm]; dsimp only; omega

theorem stdout_eq_renderMatches_of_noQualifier (l : List Ev)
    (h : countQualifier l = 0) : stdoutLines l = renderMatches l := by
  induction l with
  | nil => rfl
  | cons e rest ih =>
    have hq : isQualifier e = false := by
      cases hq : isQualifier e with
      | false => rfl
      | true => exfalso; simp [countQualifier, List.filter_cons, hq] at h
    have h0 : countQualifier rest = 0 := by
      simpa [countQualifier, List.filter_cons, hq] using h
    cases e with
    | qualifier s => exact absurd hq (by simp [isQualifier])
    | matchLine a p =>
      simpa [stdoutLines, renderMatches, List.filterMap_cons] using ih h0
    | staticCheck a f =>
      simpa [stdoutLines, renderMatches, List.filterMap_cons] using ih h0
    | oracleQuery a =>
      simpa [stdoutLines, renderMatches, List.filterMap_cons] using ih h0
    | inactiveReported m =>
      simpa [stdoutLines, renderMatches, List.filterMap_cons] using ih h0

/-! ## Demonstration inputs for the loop claims -/

/-- A demonstration derivation: a candidate's stake address is its first
word (an arbitrary deterministic choice). -/
def demoDerive : List String → Option String := fun p => p.head?

/-- A demonstration derivation that always signals a checksum mismatch. -/
def demoDeriveNone : List String → Option String := fun _ => none

/-- A demonstration oracle whose every query raises InactiveError. -/
def demoOracle : Oracle := fun _ => OracleReply.inactive "down"

/-- A mid-run loop state used to instantiate per-iteration claims. -/
def demoState : LoopState :=
  { bf := none, already_checked := ["a"], total := 3, checksum := 2,
    norepeat := 1, events := [] }

/-! ## Claims about the loop -/

/-- C2: across any run, no oracle query ever occurs after the first
oracle-failure report (cbOK), at most one oracle failure is ever reported
(and exactly one per failing query, which also disables the backend, as
the verify conjunct states), the loop still processes every enumerated
candidate (total = number of phrases, the run is not aborted), and with a
static backend configured every checksum-valid non-duplicate candidate
still gets its static membership check (one static check per counted
fresh address). -/
theorem oracle_circuit_breaker (derive : List String → Option String)
    (sc : Option (List String)) (bf : Option Oracle)
    (phrases : List (List String)) :
    cbOK (runLoop derive sc bf phrases).events = true ∧
      countFail (runLoop derive sc bf phrases).events ≤ 1 ∧
      (runLoop derive sc bf phrases).total = phrases.length ∧
      (∀ l, sc = some l →
        countStatic (runLoop derive sc bf phrases).events =
          (runLoop derive sc bf phrases).norepeat) ∧
      (∀ (o : Oracle) (addr : String) (phrase : List String) (m : String),
        o addr = OracleReply.inactive m →
          (verify sc (some o) addr phrase).1 = none ∧
            countFail (verify sc (some o) addr phrase).2 = 1) := by
  have hinv := foldl_preserves (processPhrase derive sc)
    (fun st => cbOK st.events = true ∧ countFail st.events ≤ 1 ∧
      (∀ o, st.bf = some o → countFail st.events = 0))
    (fun st p h => cb_step derive sc st p h) phrases (initState bf)
    ⟨rfl, Nat.zero_le 1, fun _ _ => rfl⟩
  refine ⟨hinv.1, hinv.2.1, ?_, ?_, ?_⟩
  · unfold runLoop
    rw [runLoop_total_aux]
    simp [initState]
  · intro l hsc
    subst hsc
    exact foldl_preserves (processPhrase derive (some l))
      (fun st => countStatic st.events = st.norepeat)
      (fun st p h => static_step derive l st p h) phrases (initState bf) rfl
  · exact fun o addr phrase m hm => verify_oracle_inactive sc o addr phrase m hm

/-- C2 witness: a run with a static list and an oracle that fails on the
first query still counts its static checks, and the failing query itself
disables the backend. -/
theorem oracle_circuit_breaker_witness :
    cbOK (runLoop demoDerive (some ["a"]) (some demoOracle)
        [["a"], ["b"]]).events = true ∧
      countStatic (runLoop demoDerive (some ["a"]) (some demoOracle)
          [["a"], ["b"]]).events =
        (runLoop demoDerive (some ["a"]) (some demoOracle)
          [["a"], ["b"]]).norepeat ∧
      demoOracle "a" = OracleReply.inactive "down" ∧
      (verify (some ["a"]) (some demoOracle) "a" ["a"]).1 = none := by
  have h := oracle_circuit_breaker demoDerive (some ["a"]) (some demoOracle)
    [["a"], ["b"]]
  exact ⟨h.1, h.2.2.2.1 ["a"] rfl, rfl,
    (h.2.2.2.2 demoOracle "a" ["a"] "down" rfl).1⟩

/-- C3: no stake address is reported as a match more than once in a run
(the reported addresses are pairwise distinct), every reported address is
in the seen-set at the end, and a candidate whose derived address is
already in the seen-set only bumps the total and checksum counters — no
verification, no output, no other state change. -/
theorem dedup_no_repeat_reports (derive : List String → Option String)
    (sc : Option (List String)) (bf : Option Oracle)
    (phrases : List (List String)) :
    (matchAddrs (runLoop derive sc bf phrases).events).Nodup ∧
      (∀ a, a ∈ matchAddrs (runLoop derive sc bf phrases).events →
        a ∈ (runLoop derive sc bf phrases).already_checked) ∧
      (∀ (st : LoopState) (p : List String) (a : String),
        derive p = some a → a ∈ st.already_checked →
          processPhrase derive sc st p =
            { st with total := st.total + 1, checksum := st.checksum + 1 }) := by
  have hinv := foldl_preserves (processPhrase derive sc)
    (fun st => (matchAddrs st.events).Nodup ∧
      ∀ a, a ∈ matchAddrs st.events → a ∈ st.already_checked)
    (fun st p h => dedup_step derive sc st p h) phrases (initState bf)
    ⟨List.nodup_nil, fun a ha => absurd ha (List.not_mem_nil a)⟩
  refine ⟨hinv.1, hinv.2, ?_⟩
  intro st p a hd hm
  rw [processPhrase_eq, hd]
  dsimp only
  rw [if_pos hm]

/-- C3 witness: two phrases deriving the same address yield distinct
reported addresses, and a duplicate candidate leaves the state unchanged
apart from the two counters. -/
theorem dedup_no_repeat_reports_witness :
    (matchAddrs (runLoop demoDerive none none
        [["a"], ["a"], ["b"]]).events).Nodup ∧
      demoDerive ["a"] = some "a" ∧ "a" ∈ demoState.already_checked ∧
      processPhrase demoDerive none demoState ["a"] =
        { demoState with total := demoState.total + 1,
                         checksum := demoState.checksum + 1 } := by
  have h := dedup_no_repeat_reports demoDerive none none [["a"], ["a"], ["b"]]
  exact ⟨h.1, rfl, List.mem_cons_self "a" [],
    h.2.2 demoState ["a"] "a" rfl (List.mem_cons_self "a" [])⟩

/-- C4: a candidate whose derivation signals a checksum mismatch is
discarded and the loop moves on: the only state change is the total
counter — the checksum counter, the seen-set, the backends and the trace
(so neither verification nor output) are untouched. -/
theorem checksum_mismatch_skips_candidate (derive : List String → Option String)
    (sc : Option (List String)) (st : LoopState) (p : List String)
    (h : derive p = none) :
    processPhrase derive sc st p = { st with total := st.total + 1 } := by
  rw [processPhrase_eq, h]

/-- C4 witness: a mismatching candidate only bumps the total counter. -/
theorem checksum_mismatch_skips_candidate_witness :
    demoDeriveNone ["x"] = none ∧
      processPhrase demoDeriveNone none demoState ["x"] =
        { demoState with total := demoState.total + 1 } :=
  ⟨rfl, checksum_mismatch_skips_candidate demoDeriveNone none demoState ["x"] rfl⟩

/-- C8: with neither backend configured the loop is in verbose fallback
mode: the trace holds nothing but match lines, one per checksum-valid
non-duplicate address (none is silently dropped), no qualifier line is
printed, and stdout is exactly the `address: space-joined words` lines of
the reported matches. -/
theorem no_backend_verbose_fallback (derive : List String → Option String)
    (phrases : List (List String)) :
    (runLoop derive none none phrases).events.all isMatch = true ∧
      countMatch (runLoop derive none none phrases).events =
        (runLoop derive none none phrases).norepeat ∧
      countQualifier (runLoop derive none none phrases).events = 0 ∧
      stdoutLines (runLoop derive none none phrases).events =
        renderMatches (runLoop derive none none phrases).events := by
  have hinv := foldl_preserves (processPhrase derive none)
    (fun st => st.bf = none ∧ st.events.all isMatch = true ∧
      countMatch st.events = st.norepeat ∧ countQualifier st.events = 0)
    (fun st p h => verbose_step derive st p h) phrases (initState none)
    ⟨rfl, rfl, rfl, rfl⟩
  exact ⟨hinv.2.1, hinv.2.2.1, hinv.2.2.2,
    stdout_eq_renderMatches_of_noQualifier _ hinv.2.2.2⟩

/-- C9: after every loop iteration (every prefix of the candidate list)
and hence in the final summary, the counters satisfy
norepeat ≤ checksum ≤ total. -/
theorem counter_monotonicity (derive : List String → Option String)
    (sc : Option (List String)) (bf : Option Oracle)
    (phrases : List (List String)) (n : Nat) :
    (runLoop derive sc bf (phrases.take n)).norepeat ≤
        (runLoop derive sc bf (phrases.take n)).checksum ∧
      (runLoop derive sc bf (phrases.take n)).checksum ≤
        (runLoop derive sc bf (phrases.take n)).total :=
  foldl_preserves (processPhrase derive sc)
    (fun st => st.norepeat ≤ st.checksum ∧ st.checksum ≤ st.total)
    (fun st p h => counters_step derive sc st p h) (phrases.take n)
    (initState bf) ⟨Nat.le_refl 0, Nat.le_refl 0⟩

end Seedrecover
